import Mathlib

/-!
Shallow embedding of `scripts/validate-markdown.py` (the `MarkdownValidator`
class and `main`), a line-oriented markdown lint/fix tool.

A file's content is split on newline characters into a list of lines.  The
validator walks the live line list with an index `i`; in fix mode the checks
may insert a blank line after position `i`, rewrite the line at position `i`,
or delete the line at position `i`, exactly as the Python `for i, line in
enumerate(lines)` loop does on the mutable list (insertions and deletions
shift the part of the list that has not been visited yet; the captured `line`
variable keeps the value fetched at the start of the iteration).

We represent the live list as `processed` (the already-visited prefix, in
reverse order, so `processed.getD 0 ""` is `lines[i-1]` and
`processed.getD 1 ""` is `lines[i-2]`) together with the current line and the
not-yet-visited suffix.  Python's `str.strip`, `str.startswith`,
`str.endswith`, slicing and the two regular expressions used by the script
are modelled on `String.data` (`List Char`).  The regex character classes
`\d` and `\s` are modelled by their ASCII parts, and `.` does not match a
newline, matching `re` defaults on the ASCII documents the tool targets.
-/

/-- ASCII whitespace stripped by Python `str.strip()` and matched by `\s`. -/
def isPyWs (c : Char) : Bool :=
  c = ' ' || c = '\t' || c = '\n' || c = '\r' || c = '\x0b' || c = '\x0c'

/-- ASCII digit, the `\d` class of the header regex. -/
def isDigitChar (c : Char) : Bool :=
  '0' ≤ c && c ≤ '9'

/-- `str.strip()` on a character list: drop leading and trailing whitespace. -/
def stripL (l : List Char) : List Char :=
  ((l.dropWhile isPyWs).reverse.dropWhile isPyWs).reverse

/-- Python `line.strip()`. -/
def pyStrip (s : String) : String :=
  ⟨stripL s.data⟩

/-- Python `s.startswith(p)`. -/
def pyStartsWith (s p : String) : Bool :=
  p.data.isPrefixOf s.data

/-- Python `s.endswith(p)`. -/
def pyEndsWith (s p : String) : Bool :=
  p.data.isSuffixOf s.data

/-- Python slicing `s[n:]`. -/
def pyDropChars (s : String) (n : Nat) : String :=
  ⟨s.data.drop n⟩

/-- Does `pat` occur as a contiguous substring of `s`?  (`re.search` with a
literal pattern.) -/
def hasSubL (pat : List Char) : List Char → Bool
  | [] => pat.isPrefixOf []
  | c :: t => if pat.isPrefixOf (c :: t) then true else hasSubL pat t

/-- The label alternation of Check 2's regex, each with its trailing colon. -/
def labelNames : List String :=
  ["Type:", "Impact:", "Example:", "Purpose:", "Note:", "Default:", "Usage:",
   "Description:"]

/-- `re.search(r'(Type|Impact|Example|Purpose|Note|Default|Usage|Description):', line)`:
the line contains one of the eight labels followed by a colon. -/
def labelSearch (line : String) : Bool :=
  labelNames.any (fun p => hasSubL p.data line.data)

/-- Scan for the closing `**:` of the header regex; the characters consumed by
`.*` may not include a newline. -/
def starColonSearch : List Char → Bool
  | [] => false
  | c :: t =>
    if List.isPrefixOf ['*', '*', ':'] (c :: t) then true
    else if c = '\n' then false
    else starColonSearch t

/-- `re.match(r'^\d+\.\s+\*\*.*\*\*:', s)` on a character list: one or more
digits, a dot, one or more whitespace characters, `**`, then `**:` further
right.  (`\d+` and `\s+` are deterministic here because `.` is not a digit
and `*` is not whitespace.) -/
def headerMatchL (cs : List Char) : Bool :=
  match cs with
  | [] => false
  | c :: _ =>
    if isDigitChar c then
      match cs.dropWhile isDigitChar with
      | '.' :: r2 =>
        match r2 with
        | [] => false
        | d :: _ =>
          if isPyWs d then
            match r2.dropWhile isPyWs with
            | '*' :: '*' :: r4 => starColonSearch r4
            | _ => false
          else false
      | _ => false
    else false

/-- The numbered bold-header pattern `<digits>. **...**:`. -/
def headerMatch (s : String) : Bool :=
  headerMatchL s.data

/-- `content.split('\n')` on a character list; never returns `[]`. -/
def splitNlL (l : List Char) : List (List Char) :=
  match l with
  | [] => [[]]
  | c :: rest =>
    let r := splitNlL rest
    if c = '\n' then [] :: r
    else
      match r with
      | [] => [[c]]
      | h :: t => (c :: h) :: t

/-- `'\n'.join(lines)` on character lists. -/
def joinNlL : List (List Char) → List Char
  | [] => []
  | [x] => x
  | x :: y :: t => x ++ '\n' :: joinNlL (y :: t)

/-- `content.split('\n')`. -/
def pySplit (s : String) : List String :=
  (splitNlL s.data).map (fun l => ⟨l⟩)

/-- `'\n'.join(lines)`. -/
def pyJoin (lines : List String) : String :=
  ⟨joinNlL (lines.map String.data)⟩

/-- Which of the script's checks produced an issue. -/
inductive Chk where
  | c1 | c2 | c2b | c2c | c3
  deriving DecidableEq, Repr

/-- One entry of the `file_issues` list: either a per-line finding or the
synthetic issue produced when reading the file fails. -/
inductive Issue where
  | line (num : Nat) (k : Chk)
  | readErr (msg : String)
  deriving DecidableEq, Repr

/-- The issue message of each check, as in the Python f-strings. -/
def Chk.msg : Chk → String
  | .c1 => "Missing blank line before list"
  | .c2 => "Inconsistent nested bullet indentation (should be 4 spaces)"
  | .c2b => "Numbered list sub-bullet has wrong indentation (should be 4 spaces)"
  | .c2c => "Extra blank line between numbered item and sub-bullets"
  | .c3 => "Configuration parameter may be missing Type/Default/Impact details"

/-- The console text of an issue. -/
def renderIssue : Issue → String
  | .line n k => "Line " ++ toString n ++ ": " ++ k.msg
  | .readErr e => "Error reading file: " ++ e

/-- Check 1 trigger: `line.strip().endswith(':') and i+1 < len(lines) and
(lines[i+1].strip().startswith('- ') or lines[i+1].strip().startswith('* '))`.
`next?` is `lines[i+1]` when `i+1 < len(lines)`. -/
def check1 (line : String) (next? : Option String) : Bool :=
  pyEndsWith (pyStrip line) ":" &&
    (match next? with
     | some nxt => pyStartsWith (pyStrip nxt) "- " || pyStartsWith (pyStrip nxt) "* "
     | none => false)

/-- Check 2 trigger: `line.startswith('  - ') and not line.startswith('    - ')
and re.search(labels, line)`. -/
def check2 (line : String) : Bool :=
  pyStartsWith line "  - " && !pyStartsWith line "    - " && labelSearch line

/-- Check 2b trigger: `line.startswith('   - ') and not line.startswith('    - ')
and i > 0 and re.match(header, lines[i-2].strip() if i >= 2 else '')`.
`processed` is the visited prefix in reverse, so `i = processed.length` and
`lines[i-2] = processed.getD 1 ""`. -/
def check2b (processed : List String) (line : String) : Bool :=
  pyStartsWith line "   - " && !pyStartsWith line "    - " &&
    decide (0 < processed.length) &&
    headerMatch (if 2 ≤ processed.length then pyStrip (processed.getD 1 "") else "")

/-- Check 2c trigger: `line.strip() == '' and i > 0 and i+1 < len(lines) and
re.match(header, lines[i-1].strip()) and
lines[i+1].strip().startswith('   - ')`.  `next?` is the live `lines[i+1]`
(after a Check 1 insertion, the inserted blank). -/
def check2c (processed : List String) (line : String) (next? : Option String) : Bool :=
  (pyStrip line == "") && decide (0 < processed.length) && next?.isSome &&
    headerMatch (pyStrip (processed.getD 0 "")) &&
    (match next? with
     | some nxt => pyStartsWith (pyStrip nxt) "   - "
     | none => false)

/-- Check 3 trigger: `re.match(header, line.strip()) and i+1 < len(lines) and
not lines[i+1].strip().startswith('    - Type:') and
not lines[i+1].strip() == ''`.  `next?` is the live `lines[i+1]`. -/
def check3 (line : String) (next? : Option String) : Bool :=
  headerMatch (pyStrip line) &&
    (match next? with
     | some nxt => !pyStartsWith (pyStrip nxt) "    - Type:" && !(pyStrip nxt == "")
     | none => false)

/-- Result of one iteration of the `for i, line in enumerate(lines)` body:
the issues appended, the final value of `lines[i]`, the updated unvisited
suffix (with the Check 1 blank pushed in front when inserted), whether
Check 2c popped `lines[i]`, and whether `modified` was set. -/
structure StepOut where
  iss : List Issue
  cur : String
  rest1 : List String
  popped : Bool
  mod : Bool
  deriving Repr

/-- One iteration of the loop body of `validate_file`, at live index
`i = processed.length`, with captured `line` and unvisited suffix `rest0`. -/
def vstep (fixMode : Bool) (processed : List String) (line : String)
    (rest0 : List String) : StepOut :=
  let lineNum := processed.length + 1
  let c1 := check1 line rest0.head?
  let rest1 := if fixMode && c1 then "" :: rest0 else rest0
  let c2 := check2 line
  let cur1 := if fixMode && c2 then "    " ++ pyDropChars line 2 else line
  let c2b := check2b processed line
  let cur2 := if fixMode && c2b then "    " ++ pyDropChars line 3 else cur1
  let c2c := check2c processed line rest1.head?
  let popped := fixMode && c2c
  let next3 := if popped then rest1.tail.head? else rest1.head?
  let c3 := check3 line next3
  { iss :=
      (if c1 then [Issue.line lineNum Chk.c1] else []) ++
      (if c2 then [Issue.line lineNum Chk.c2] else []) ++
      (if c2b then [Issue.line lineNum Chk.c2b] else []) ++
      (if c2c then [Issue.line lineNum Chk.c2c] else []) ++
      (if c3 then [Issue.line lineNum Chk.c3] else [])
    cur := cur2
    rest1 := rest1
    popped := popped
    mod := fixMode && (c1 || c2 || c2b || c2c) }

/-- Weight of a line for the termination measure: lines whose stripped text
ends in a colon can cause a Check 1 insertion. -/
def colonWeight (s : String) : Nat :=
  if pyEndsWith (pyStrip s) ":" then 1 else 0

/-- Termination measure of the validation loop over the unvisited suffix. -/
def mu (l : List String) : Nat :=
  l.length + (l.map colonWeight).sum

theorem colonWeight_empty : colonWeight "" = 0 := by decide

theorem mu_cons (a : String) (l : List String) :
    mu (a :: l) = 1 + colonWeight a + mu l := by
  simp [mu, List.sum_cons]
  omega

theorem check1_colonWeight {line : String} {next? : Option String}
    (h : check1 line next? = true) : colonWeight line = 1 := by
  have h1 : pyEndsWith (pyStrip line) ":" = true := by
    have := h
    unfold check1 at this
    exact (Bool.and_eq_true _ _).mp this |>.1
  simp [colonWeight, h1]

theorem vstep_rest1_mu (fixMode : Bool) (processed : List String) (line : String)
    (rest0 : List String) :
    mu (vstep fixMode processed line rest0).rest1 < mu (line :: rest0) := by
  show mu (if fixMode && check1 line rest0.head? then "" :: rest0 else rest0) <
    mu (line :: rest0)
  by_cases h : (fixMode && check1 line rest0.head?) = true
  · have hc : check1 line rest0.head? = true := ((Bool.and_eq_true _ _).mp h).2
    rw [if_pos h, mu_cons, mu_cons, check1_colonWeight hc, colonWeight_empty]
    omega
  · rw [if_neg h, mu_cons]
    omega

/-- The `for i, line in enumerate(lines)` loop of `validate_file` over the
live line list, with `processed` the visited prefix in reverse.  Returns the
final form of the unvisited part, the issues collected, and the `modified`
flag.  After a Check 2c pop the iterator skips the element that slid into the
current position, exactly as Python's list iterator does. -/
def vloop (fixMode : Bool) (processed : List String) (remaining : List String) :
    List String × List Issue × Bool :=
  match remaining with
  | [] => ([], [], false)
  | line :: rest0 =>
    let s := vstep fixMode processed line rest0
    if s.popped then
      match h : s.rest1 with
      | [] => ([], s.iss, s.mod)
      | skipped :: rest2 =>
        let t := vloop fixMode (skipped :: processed) rest2
        (skipped :: t.1, s.iss ++ t.2.1, s.mod || t.2.2)
    else
      let t := vloop fixMode (s.cur :: processed) s.rest1
      (s.cur :: t.1, s.iss ++ t.2.1, s.mod || t.2.2)
termination_by mu remaining
decreasing_by
  · have h1 := vstep_rest1_mu fixMode processed line rest0
    rw [h, mu_cons] at h1
    omega
  · exact vstep_rest1_mu fixMode processed line rest0

theorem vstep_false_popped (p : List String) (line : String) (rest0 : List String) :
    (vstep false p line rest0).popped = false := by
  simp [vstep]

theorem vstep_false_rest1 (p : List String) (line : String) (rest0 : List String) :
    (vstep false p line rest0).rest1 = rest0 := by
  simp [vstep]

theorem vstep_false_cur (p : List String) (line : String) (rest0 : List String) :
    (vstep false p line rest0).cur = line := by
  simp [vstep]

theorem vstep_false_mod (p : List String) (line : String) (rest0 : List String) :
    (vstep false p line rest0).mod = false := by
  simp [vstep]

/-- The issues of a report-mode run (no list mutation happens, so this is a
plain structural pass over the lines). -/
def reportIss (processed : List String) : List String → List Issue
  | [] => []
  | line :: rest0 =>
    (vstep false processed line rest0).iss ++ reportIss (line :: processed) rest0

/-- In report mode the loop returns the lines unchanged, the issues of
`reportIss`, and `modified = false`. -/
theorem vloop_report (remaining : List String) : ∀ processed,
    vloop false processed remaining = (remaining, reportIss processed remaining, false) := by
  induction remaining with
  | nil => intro p; rw [vloop]; rfl
  | cons line rest0 ih =>
    intro p
    rw [vloop]
    simp only [vstep_false_popped, vstep_false_rest1, vstep_false_cur, vstep_false_mod]
    rw [ih (line :: p)]
    simp [reportIss]

theorem dropWhile_head_false {α : Type} (p : α → Bool) (l : List α) :
    ∀ c t, l.dropWhile p = c :: t → p c = false := by
  induction l with
  | nil => intro c t h; simp [List.dropWhile] at h
  | cons a l ih =>
    intro c t h
    rw [List.dropWhile_cons] at h
    by_cases ha : p a = true
    · rw [if_pos ha] at h; exact ih c t h
    · rw [if_neg ha] at h
      cases h
      exact Bool.not_eq_true _ |>.mp ha

/-- The head of a stripped string is never whitespace. -/
theorem stripL_head_not_ws (l : List Char) :
    ∀ c t, stripL l = c :: t → isPyWs c = false := by
  intro c t h
  unfold stripL at h
  set l1 := l.dropWhile isPyWs with hl1
  have hsuff : (l1.reverse.dropWhile isPyWs) <:+ l1.reverse := List.dropWhile_suffix _
  have hpre : (l1.reverse.dropWhile isPyWs).reverse <+: l1 := by
    have := List.reverse_prefix.mpr hsuff
    simpa using this
  rw [h] at hpre
  obtain ⟨t2, ht2⟩ := hpre
  have : l1 = c :: (t ++ t2) := by rw [← ht2]; simp
  exact dropWhile_head_false isPyWs l c (t ++ t2) this

/-- `s.strip().startswith(p)` is always false when `p` begins with a
whitespace character: stripping removes every leading whitespace character.
This makes the sub-bullet conjunct of Check 2c and the `'    - Type:'`
conjunct of Check 3 unsatisfiable. -/
theorem strip_startswith_ws (s : String) (c : Char) (rest : List Char)
    (p : String) (hp : p.data = c :: rest) (hc : isPyWs c = true) :
    pyStartsWith (pyStrip s) p = false := by
  unfold pyStartsWith pyStrip
  rw [hp]
  show List.isPrefixOf (c :: rest) (stripL s.data) = false
  cases h : stripL s.data with
  | nil => rfl
  | cons d t =>
    have hd : isPyWs d = false := stripL_head_not_ws s.data d t h
    show ((c == d) && List.isPrefixOf rest t) = false
    have : (c == d) = false := by
      cases heq : c == d
      · rfl
      · exfalso
        have : c = d := by simpa using heq
        rw [this, hd] at hc
        exact Bool.false_ne_true hc
    rw [this, Bool.false_and]

theorem strip_not_start_3sp (s : String) :
    pyStartsWith (pyStrip s) "   - " = false :=
  strip_startswith_ws s ' ' [' ', ' ', '-', ' '] "   - " rfl rfl

theorem strip_not_start_type (s : String) :
    pyStartsWith (pyStrip s) "    - Type:" = false :=
  strip_startswith_ws s ' ' [' ', ' ', ' ', '-', ' ', 'T', 'y', 'p', 'e', ':']
    "    - Type:" rfl rfl

/-- Check 2c can never fire: its final conjunct asks a stripped line to start
with three spaces. -/
theorem check2c_false (processed : List String) (line : String)
    (next? : Option String) : check2c processed line next? = false := by
  unfold check2c
  cases next? with
  | none => simp
  | some nxt => simp [strip_not_start_3sp]

theorem vstep_popped (f : Bool) (p : List String) (line : String)
    (rest0 : List String) : (vstep f p line rest0).popped = false := by
  simp [vstep, check2c_false]

theorem vstep_true_rest1 (p : List String) (line : String) (rest0 : List String) :
    (vstep true p line rest0).rest1 =
      if check1 line rest0.head? then "" :: rest0 else rest0 := by
  simp [vstep]

theorem vstep_true_cur (p : List String) (line : String) (rest0 : List String) :
    (vstep true p line rest0).cur =
      if check2b p line then "    " ++ pyDropChars line 3
      else if check2 line then "    " ++ pyDropChars line 2
      else line := by
  simp only [vstep]
  by_cases h2b : check2b p line = true
  · simp [h2b]
  · by_cases h2 : check2 line = true
    · simp [h2b, h2]
    · simp [h2b, h2]

theorem check1_empty (next? : Option String) : check1 "" next? = false := by
  unfold check1
  rw [(by decide : pyEndsWith (pyStrip "") ":" = false), Bool.false_and]

theorem check2_empty : check2 "" = false := by decide

theorem check2b_empty (q : List String) : check2b q "" = false := by
  unfold check2b
  rw [(by decide : pyStartsWith "" "   - " = false), Bool.false_and, Bool.false_and,
    Bool.false_and]

theorem check3_empty (next? : Option String) : check3 "" next? = false := by
  unfold check3
  rw [(by decide : headerMatch (pyStrip "") = false), Bool.false_and]

/-- Visiting an inserted blank line fires nothing and leaves it unchanged. -/
theorem vstep_blank (q : List String) (rest0 : List String) :
    vstep true q "" rest0 =
      { iss := [], cur := "", rest1 := rest0, popped := false, mod := false } := by
  simp [vstep, check1_empty, check2_empty, check2b_empty, check3_empty, check2c_false]

/-- Structural form of a fix-mode pass.  When Check 1 fires, the inserted
blank line is visited next, fires nothing (`vstep_blank`), and is emitted
unchanged, so it can be consumed in the same step; Check 2c never pops
(`check2c_false`). -/
def fixList (processed : List String) : List String → List String × List Issue × Bool
  | [] => ([], [], false)
  | line :: rest0 =>
    let s := vstep true processed line rest0
    if check1 line rest0.head? then
      let t := fixList ("" :: s.cur :: processed) rest0
      (s.cur :: "" :: t.1, s.iss ++ t.2.1, s.mod || t.2.2)
    else
      let t := fixList (s.cur :: processed) rest0
      (s.cur :: t.1, s.iss ++ t.2.1, s.mod || t.2.2)

/-- The fix-mode loop computes `fixList`. -/
theorem vloop_fix (remaining : List String) : ∀ processed,
    vloop true processed remaining = fixList processed remaining := by
  induction remaining with
  | nil => intro p; rw [vloop]; simp [fixList]
  | cons line rest0 ih =>
    intro p
    rw [vloop]
    simp only [vstep_popped, Bool.false_eq_true, if_false]
    by_cases hc1 : check1 line rest0.head? = true
    · rw [vstep_true_rest1, if_pos hc1]
      rw [vloop]
      simp only [vstep_blank]
      rw [ih ("" :: (vstep true p line rest0).cur :: p)]
      simp [fixList, hc1]
    · rw [vstep_true_rest1, if_neg hc1]
      rw [ih ((vstep true p line rest0).cur :: p)]
      simp [fixList, hc1]

/-- Issues reported by a report-mode pass over a line list (from line 1). -/
def reportIssues (lines : List String) : List Issue :=
  (vloop false [] lines).2.1

/-- Full result of a fix-mode pass over a line list. -/
def fixResult (lines : List String) : List String × List Issue × Bool :=
  vloop true [] lines

/-- The line list after a fix-mode pass. -/
def fixLines (lines : List String) : List String :=
  (fixResult lines).1

/-- `MarkdownValidator.validate_file`: the read result of the file is either
an error message or its text.  Returns the `file_issues` list and, when fix
mode set `modified`, the content written back
(`'\n'.join(lines)`); a read/decode failure is caught and produces the single
synthetic issue `"Error reading file: ..."`. -/
def validateFile (fixMode : Bool) (data : Except String String) :
    List Issue × Option String :=
  match data with
  | .error e => ([Issue.readErr e], none)
  | .ok content =>
    let lines := pySplit content
    let r := vloop fixMode [] lines
    (r.2.1, if r.2.2 && fixMode then some (pyJoin r.1) else none)

/-- The read result of a file after one run of `validate_file` on it: the
content written back, or the unchanged original when nothing was written. -/
def fileAfter (fixMode : Bool) (data : Except String String) :
    Except String String :=
  match (validateFile fixMode data).2 with
  | some newContent => .ok newContent
  | none => data

/-- `MarkdownValidator.validate_directory`: the tree is the list of files in
traversal order, each a name and a read result.  Only names ending in `.md`
are validated; a file contributes to the totals only when its issue list is
nonempty.  Returns `(total_issues, files_with_issues)`. -/
def validateDirectory (fixMode : Bool) : List (String × Except String String) → Nat × Nat
  | [] => (0, 0)
  | (name, data) :: rest =>
    let t := validateDirectory fixMode rest
    if pyEndsWith name ".md" then
      let issues := (validateFile fixMode data).1
      if issues.isEmpty then t else (issues.length + t.1, 1 + t.2)
    else t

/-- The tree after a run: `validate_file` rewrites the `.md` files it fixed;
no other file is touched. -/
def dirAfter (fixMode : Bool) (files : List (String × Except String String)) :
    List (String × Except String String) :=
  files.map (fun nf =>
    if pyEndsWith nf.1 ".md" then (nf.1, fileAfter fixMode nf.2) else nf)

/-- The target handed to `MarkdownValidator.run`: a single file, a directory,
or an invalid path. -/
inductive Target where
  | file (data : Except String String)
  | dir (files : List (String × Except String String))
  | invalid

/-- `MarkdownValidator.run`: returns `(total_issues, files_with_issues)`;
an invalid path reports `(0, 0)`. -/
def runTarget (fixMode : Bool) : Target → Nat × Nat
  | .file data =>
    let issues := (validateFile fixMode data).1
    (issues.length, if issues.isEmpty then 0 else 1)
  | .dir files => validateDirectory fixMode files
  | .invalid => (0, 0)

/-- The process exit code of `main`: fix mode never calls `sys.exit`, report
mode calls `sys.exit(1)` exactly when `total_issues > 0`. -/
def mainExit (fixMode : Bool) (t : Target) : Nat :=
  let totals := runTarget fixMode t
  if fixMode then 0
  else if 0 < totals.1 then 1 else 0

theorem reportIssues_eq (lines : List String) :
    reportIssues lines = reportIss [] lines := by
  unfold reportIssues
  rw [vloop_report]

theorem fixResult_eq (lines : List String) :
    fixResult lines = fixList [] lines := by
  unfold fixResult
  rw [vloop_fix]

theorem validateFile_report_eq (content : String) :
    validateFile false (.ok content) = (reportIss [] (pySplit content), none) := by
  unfold validateFile
  dsimp only
  rw [vloop_report]
  simp

theorem validateFile_fix_eq (content : String) :
    validateFile true (.ok content) =
      ((fixList [] (pySplit content)).2.1,
        if (fixList [] (pySplit content)).2.2 then
          some (pyJoin (fixList [] (pySplit content)).1) else none) := by
  unfold validateFile
  dsimp only
  rw [vloop_fix]
  simp

theorem validateDirectory_cons (fixMode : Bool) (name : String)
    (data : Except String String) (rest : List (String × Except String String)) :
    validateDirectory fixMode ((name, data) :: rest) =
      if pyEndsWith name ".md" then
        if ((validateFile fixMode data).1).isEmpty then validateDirectory fixMode rest
        else (((validateFile fixMode data).1).length + (validateDirectory fixMode rest).1,
              1 + (validateDirectory fixMode rest).2)
      else validateDirectory fixMode rest := rfl

theorem validateDirectory_append (fixMode : Bool)
    (xs ys : List (String × Except String String)) :
    validateDirectory fixMode (xs ++ ys) =
      ((validateDirectory fixMode xs).1 + (validateDirectory fixMode ys).1,
       (validateDirectory fixMode xs).2 + (validateDirectory fixMode ys).2) := by
  induction xs with
  | nil => simp [validateDirectory]
  | cons nf rest ih =>
    obtain ⟨name, data⟩ := nf
    rw [List.cons_append, validateDirectory_cons, validateDirectory_cons, ih]
    by_cases hmd : pyEndsWith name ".md" = true
    · rw [if_pos hmd, if_pos hmd]
      by_cases hiss : ((validateFile fixMode data).1).isEmpty = true
      · rw [if_pos hiss, if_pos hiss]
      · rw [if_neg hiss, if_neg hiss]
        simp only [Prod.mk.injEq]
        omega
    · rw [if_neg hmd, if_neg hmd]

/-- C5: report mode (no `--fix`) never writes: `validate_file` produces no
write-back for any read result, the file is unchanged after the run, and a
directory run leaves the whole tree unchanged. -/
theorem report_mode_never_writes (data : Except String String)
    (files : List (String × Except String String)) :
    (validateFile false data).2 = none ∧
    fileAfter false data = data ∧
    dirAfter false files = files := by
  have hfile : ∀ d : Except String String, (validateFile false d).2 = none := by
    intro d
    cases d with
    | error e => rfl
    | ok content => rw [validateFile_report_eq]
  have hafter : ∀ d : Except String String, fileAfter false d = d := by
    intro d
    unfold fileAfter
    rw [hfile d]
  refine ⟨hfile data, hafter data, ?_⟩
  unfold dirAfter
  have : ∀ nf : String × Except String String,
      (if pyEndsWith nf.1 ".md" then (nf.1, fileAfter false nf.2) else nf) = nf := by
    intro nf
    rw [hafter nf.2]
    split <;> rfl
  simp only [this, List.map_id_fun', id]

/-- C6: `main` exits 0 whenever fix mode is used and whenever report mode
finds zero issues, and exits 1 exactly when report mode finds at least one
issue. -/
theorem exit_code_spec (t : Target) :
    mainExit true t = 0 ∧
    (mainExit false t = if 0 < (runTarget false t).1 then 1 else 0) ∧
    (mainExit false t = 1 ↔ 0 < (runTarget false t).1) ∧
    (mainExit false t = 0 ↔ (runTarget false t).1 = 0) := by
  have h0 : mainExit true t = 0 := rfl
  have h1 : mainExit false t = if 0 < (runTarget false t).1 then 1 else 0 := rfl
  refine ⟨h0, h1, ?_, ?_⟩ <;> rw [h1] <;>
    by_cases h : 0 < (runTarget false t).1 <;> simp [h] <;> omega

/-- C7: a read/decode failure yields exactly one synthetic issue and is not
fatal: in a directory run the failing `.md` file contributes exactly one file
with one issue to the totals, and the files before and after it are processed
as usual. -/
theorem read_error_isolated (fixMode : Bool) (e name : String)
    (pre post : List (String × Except String String))
    (h : pyEndsWith name ".md" = true) :
    (validateFile fixMode (.error e)).1 = [Issue.readErr e] ∧
    validateDirectory fixMode (pre ++ (name, .error e) :: post) =
      ((validateDirectory fixMode pre).1 + 1 + (validateDirectory fixMode post).1,
       (validateDirectory fixMode pre).2 + 1 + (validateDirectory fixMode post).2) := by
  have h1 : (validateFile fixMode (.error e)).1 = [Issue.readErr e] := by
    cases fixMode <;> rfl
  refine ⟨h1, ?_⟩
  rw [validateDirectory_append, validateDirectory_cons, if_pos h, h1]
  simp only [List.isEmpty_cons, List.length_cons, List.length_nil,
    Bool.false_eq_true, if_false]
  simp only [Prod.mk.injEq]
  omega

/-- C7 witness. -/
theorem read_error_isolated_witness :
    pyEndsWith "a.md" ".md" = true ∧
    ((validateFile false (.error "boom")).1 = [Issue.readErr "boom"] ∧
     validateDirectory false [("a.md", .error "boom")] =
       ((validateDirectory false []).1 + 1 + (validateDirectory false []).1,
        (validateDirectory false []).2 + 1 + (validateDirectory false []).2)) := by
  refine ⟨by decide, ?_⟩
  have := read_error_isolated false "boom" "a.md" [] [] (by decide)
  simpa using this

/-- C8: a directory scan validates exactly the `.md` files (the totals are
those of the `.md` sub-list, so a non-markdown file never contributes), and
the summary counts are the sum of per-file issue counts and the number of
validated files with at least one issue. -/
theorem directory_scan_totals (fixMode : Bool)
    (files : List (String × Except String String)) :
    validateDirectory fixMode files =
      validateDirectory fixMode (files.filter (fun nf => pyEndsWith nf.1 ".md")) ∧
    (validateDirectory fixMode files).1 =
      ((files.filter (fun nf => pyEndsWith nf.1 ".md")).map
        (fun nf => ((validateFile fixMode nf.2).1).length)).sum ∧
    (validateDirectory fixMode files).2 =
      ((files.filter (fun nf => pyEndsWith nf.1 ".md")).filter
        (fun nf => !((validateFile fixMode nf.2).1).isEmpty)).length := by
  induction files with
  | nil => exact ⟨rfl, rfl, rfl⟩
  | cons nf rest ih =>
    obtain ⟨name, data⟩ := nf
    obtain ⟨ih1, ih2, ih3⟩ := ih
    by_cases hmd : pyEndsWith name ".md" = true
    · rw [validateDirectory_cons]
      rw [if_pos hmd]
      simp only [List.filter_cons, hmd, if_pos]
      rw [validateDirectory_cons, if_pos hmd]
      by_cases hiss : ((validateFile fixMode data).1).isEmpty = true
      · rw [if_pos hiss, if_pos hiss]
        refine ⟨ih1, ?_, ?_⟩
        · rw [List.map_cons, List.sum_cons, ih2]
          rw [List.isEmpty_iff] at hiss
          rw [hiss]
          simp
        · simp only [hiss, Bool.not_true, Bool.false_eq_true, if_false]
          exact ih3
      · rw [if_neg hiss, if_neg hiss]
        refine ⟨by rw [ih1], ?_, ?_⟩
        · rw [List.map_cons, List.sum_cons, ih2]
        · simp only [Bool.not_eq_true] at hiss
          simp only [hiss, Bool.not_false, if_pos, List.length_cons]
          rw [ih3]
          omega
    · rw [validateDirectory_cons, if_neg hmd]
      simp only [List.filter_cons]
      have hmd2 : pyEndsWith name ".md" = false := Bool.not_eq_true _ |>.mp hmd
      simp only [hmd2, Bool.false_eq_true, if_false]
      exact ⟨ih1, ih2, ih3⟩


/-- Check 1 with every line access made explicit: `lines[j]` is `lines[j]?`
(an out-of-range access would surface as `none`, as Python's `lines[j]`
would raise `IndexError`), and the conjuncts short-circuit left to right in
source order. -/
def check1opt (lines : List String) (i : Nat) : Option Bool :=
  (lines[i]?).bind fun line =>
    if pyEndsWith (pyStrip line) ":" then
      if i + 1 < lines.length then
        (lines[i + 1]?).bind fun nxt =>
          some (pyStartsWith (pyStrip nxt) "- " || pyStartsWith (pyStrip nxt) "* ")
      else some false
    else some false

/-- Check 2 with explicit access: only the current line is read. -/
def check2opt (lines : List String) (i : Nat) : Option Bool :=
  (lines[i]?).bind fun line => some (check2 line)

/-- Check 2b with explicit access: `lines[i-2]` is read only inside the
`if i >= 2 else ''` conditional expression, after the `i > 0` conjunct. -/
def check2bopt (lines : List String) (i : Nat) : Option Bool :=
  (lines[i]?).bind fun line =>
    if pyStartsWith line "   - " && !pyStartsWith line "    - " then
      if 0 < i then
        (if 2 ≤ i then (lines[i - 2]?).bind fun two => some (pyStrip two)
         else some "").bind fun ctx =>
          some (headerMatch ctx)
      else some false
    else some false

/-- Check 2c with explicit access: `lines[i-1]` behind `i > 0`, `lines[i+1]`
behind `i + 1 < len(lines)`. -/
def check2copt (lines : List String) (i : Nat) : Option Bool :=
  (lines[i]?).bind fun line =>
    if pyStrip line == "" then
      if 0 < i then
        if i + 1 < lines.length then
          (lines[i - 1]?).bind fun prev =>
            if headerMatch (pyStrip prev) then
              (lines[i + 1]?).bind fun nxt =>
                some (pyStartsWith (pyStrip nxt) "   - ")
            else some false
        else some false
      else some false
    else some false

/-- Check 3 with explicit access: `lines[i+1]` behind `i + 1 < len(lines)`. -/
def check3opt (lines : List String) (i : Nat) : Option Bool :=
  (lines[i]?).bind fun line =>
    if headerMatch (pyStrip line) then
      if i + 1 < lines.length then
        (lines[i + 1]?).bind fun nxt =>
          some (!pyStartsWith (pyStrip nxt) "    - Type:" && !(pyStrip nxt == ""))
      else some false
    else some false

/-- C10: for any line list and any in-range index, every neighbor access of
the five checks is guarded by a bounds test evaluated first, so none of them
reads out of range. -/
theorem checks_never_out_of_range (lines : List String) (i : Nat)
    (h : i < lines.length) :
    (check1opt lines i).isSome = true ∧ (check2opt lines i).isSome = true ∧
    (check2bopt lines i).isSome = true ∧ (check2copt lines i).isSome = true ∧
    (check3opt lines i).isSome = true := by
  have hi : lines[i]? = some lines[i] := List.getElem?_eq_getElem h
  refine ⟨?_, ?_, ?_, ?_, ?_⟩
  · unfold check1opt
    rw [hi, Option.some_bind]
    split
    · split
      · rename_i hlt
        rw [List.getElem?_eq_getElem hlt, Option.some_bind]
        rfl
      · rfl
    · rfl
  · unfold check2opt
    rw [hi, Option.some_bind]
    rfl
  · unfold check2bopt
    rw [hi, Option.some_bind]
    split
    · split
      · split
        · rename_i h2
          rw [List.getElem?_eq_getElem (show i - 2 < lines.length by omega),
            Option.some_bind, Option.some_bind]
          rfl
        · rw [Option.some_bind]
          rfl
      · rfl
    · rfl
  · unfold check2copt
    rw [hi, Option.some_bind]
    split
    · split
      · split
        · rename_i h0 hlt
          rw [List.getElem?_eq_getElem (show i - 1 < lines.length by omega),
            Option.some_bind]
          split
          · rw [List.getElem?_eq_getElem (show i + 1 < lines.length from hlt),
              Option.some_bind]
            rfl
          · rfl
        · rfl
      · rfl
    · rfl
  · unfold check3opt
    rw [hi, Option.some_bind]
    split
    · split
      · rename_i hlt
        rw [List.getElem?_eq_getElem hlt, Option.some_bind]
        rfl
      · rfl
    · rfl

/-- C10 witness. -/
theorem checks_never_out_of_range_witness :
    0 < (["x:"] : List String).length ∧
    ((check1opt ["x:"] 0).isSome = true ∧ (check2opt ["x:"] 0).isSome = true ∧
     (check2bopt ["x:"] 0).isSome = true ∧ (check2copt ["x:"] 0).isSome = true ∧
     (check3opt ["x:"] 0).isSome = true) :=
  ⟨by decide, checks_never_out_of_range ["x:"] 0 (by decide)⟩

theorem check3_some_blank (line : String) : check3 line (some "") = false := by
  show (headerMatch (pyStrip line) &&
    (!pyStartsWith (pyStrip "") "    - Type:" && !(pyStrip "" == ""))) = false
  rw [(by decide : ((pyStrip "" == "") : Bool) = true)]
  simp

theorem vstep_iss_report (p : List String) (line : String) (r0 : List String) :
    (vstep false p line r0).iss =
      (if check1 line r0.head? then [Issue.line (p.length + 1) Chk.c1] else []) ++
      (if check2 line then [Issue.line (p.length + 1) Chk.c2] else []) ++
      (if check2b p line then [Issue.line (p.length + 1) Chk.c2b] else []) ++
      (if check3 line r0.head? then [Issue.line (p.length + 1) Chk.c3] else []) := by
  simp [vstep, check2c_false]

theorem vstep_iss_fix (p : List String) (line : String) (r0 : List String) :
    (vstep true p line r0).iss =
      (if check1 line r0.head? then [Issue.line (p.length + 1) Chk.c1] else []) ++
      (if check2 line then [Issue.line (p.length + 1) Chk.c2] else []) ++
      (if check2b p line then [Issue.line (p.length + 1) Chk.c2b] else []) ++
      (if check1 line r0.head? then []
       else if check3 line r0.head? then [Issue.line (p.length + 1) Chk.c3] else []) := by
  by_cases hc1 : check1 line r0.head? = true
  · simp [vstep, check2c_false, hc1, check3_some_blank]
  · simp [vstep, check2c_false, hc1]

theorem reportIss_no_c2c (r : List String) :
    ∀ p n, Issue.line n Chk.c2c ∉ reportIss p r := by
  induction r with
  | nil => intro p n; simp [reportIss]
  | cons line r0 ih =>
    intro p n
    simp only [reportIss, List.mem_append]
    rintro (hm | hm)
    · rw [vstep_iss_report] at hm
      simp only [List.mem_append] at hm
      rcases hm with ((h | h) | h) | h <;> split at h <;> simp_all
    · exact ih (line :: p) n hm

theorem fixList_no_c2c (r : List String) :
    ∀ p n, Issue.line n Chk.c2c ∉ (fixList p r).2.1 := by
  induction r with
  | nil => intro p n; simp [fixList]
  | cons line r0 ih =>
    intro p n
    unfold fixList
    by_cases hc1 : check1 line r0.head? = true
    · simp only [hc1, if_pos, List.mem_append]
      rintro (hm | hm)
      · rw [vstep_iss_fix] at hm
        simp only [List.mem_append] at hm
        rcases hm with ((h | h) | h) | h <;> split at h <;> simp_all
      · exact ih ("" :: (vstep true p line r0).cur :: p) n hm
    · simp only [hc1, Bool.false_eq_true, if_false, List.mem_append]
      rintro (hm | hm)
      · rw [vstep_iss_fix] at hm
        simp only [List.mem_append] at hm
        rcases hm with ((h | h) | h) | h <;> split at h <;> simp_all
      · exact ih ((vstep true p line r0).cur :: p) n hm

/-- C3 (code bug): Check 2c can never fire, in either mode, because
`lines[i+1].strip().startswith('   - ')` asks a stripped string to begin
with spaces.  On the very input the check is written for — a numbered bold
header, a blank line, a 3-space-indented sub-bullet — no
"Extra blank line between numbered item and sub-bullets" issue is reported
(only Check 2b fires, on line 3), and fix mode rewrites the sub-bullet's
indentation but leaves the blank line in place. -/
theorem check2c_never_fires :
    (∀ lines n, Issue.line n Chk.c2c ∉ reportIssues lines) ∧
    (∀ content n, Issue.line n Chk.c2c ∉ (validateFile true (.ok content)).1) ∧
    (validateFile false (.ok "1. **Param**:\n\n   - Type: string")).1 =
      [Issue.line 3 Chk.c2b] ∧
    (validateFile true (.ok "1. **Param**:\n\n   - Type: string")).2 =
      some "1. **Param**:\n\n    - Type: string" := by
  refine ⟨?_, ?_, ?_, ?_⟩
  · intro lines n
    rw [reportIssues_eq]
    exact reportIss_no_c2c lines [] n
  · intro content n
    rw [validateFile_fix_eq]
    exact fixList_no_c2c (pySplit content) [] n
  · rw [validateFile_report_eq]
    decide
  · rw [validateFile_fix_eq]
    decide

/-- C4 (code bug): the `'    - Type:'` exemption of Check 3 is dead —
`lines[i+1].strip().startswith('    - Type:')` asks a stripped string to
begin with spaces — so a numbered bold header is flagged whenever the next
line exists and is nonblank, even when that next line is exactly the
4-space-indented `Type:` sub-bullet the check looks for.  (Check 1 also
fires on this input, since the stripped sub-bullet starts with `- `.) -/
theorem check3_type_exemption_dead :
    (∀ s : String, pyStartsWith (pyStrip s) "    - Type:" = false) ∧
    (validateFile false (.ok "1. **Param**:\n    - Type: string")).1 =
      [Issue.line 1 Chk.c1, Issue.line 1 Chk.c3] := by
  refine ⟨strip_not_start_type, ?_⟩
  rw [validateFile_report_eq]
  decide

/-- Issues produced by the checks that mutate in fix mode (1, 2, 2b, 2c);
Check 3 findings and read errors never set `modified`. -/
def isMutIssue : Issue → Bool
  | .line _ Chk.c3 => false
  | .line _ _ => true
  | .readErr _ => false

theorem vstep_fix_mod (p : List String) (line : String) (r0 : List String) :
    (vstep true p line r0).mod =
      (check1 line r0.head? || check2 line || check2b p line) := by
  simp [vstep, check2c_false]

theorem vstep_iss_any_mut (p : List String) (line : String) (r0 : List String) :
    ((vstep true p line r0).iss.any isMutIssue) =
      (check1 line r0.head? || check2 line || check2b p line) := by
  rw [vstep_iss_fix]
  simp only [List.any_append]
  by_cases hc1 : check1 line r0.head? = true <;>
    by_cases hc2 : check2 line = true <;>
      by_cases hc2b : check2b p line = true <;>
        simp only [hc1, hc2, hc2b, Bool.false_eq_true, if_pos, if_false,
          List.any_cons, List.any_nil, Bool.or_false, Bool.false_or,
          Bool.true_or, Bool.or_true, isMutIssue] <;>
        first
          | rfl
          | (split <;> simp [isMutIssue])

theorem fixList_cons_pos (p : List String) (line : String) (r0 : List String)
    (hc1 : check1 line r0.head? = true) :
    fixList p (line :: r0) =
      ((vstep true p line r0).cur :: "" ::
         (fixList ("" :: (vstep true p line r0).cur :: p) r0).1,
       (vstep true p line r0).iss ++
         (fixList ("" :: (vstep true p line r0).cur :: p) r0).2.1,
       (vstep true p line r0).mod ||
         (fixList ("" :: (vstep true p line r0).cur :: p) r0).2.2) := by
  simp [fixList, hc1]

theorem fixList_cons_neg (p : List String) (line : String) (r0 : List String)
    (hc1 : ¬check1 line r0.head? = true) :
    fixList p (line :: r0) =
      ((vstep true p line r0).cur :: (fixList ((vstep true p line r0).cur :: p) r0).1,
       (vstep true p line r0).iss ++ (fixList ((vstep true p line r0).cur :: p) r0).2.1,
       (vstep true p line r0).mod || (fixList ((vstep true p line r0).cur :: p) r0).2.2) := by
  simp [fixList, hc1]

theorem fixList_mod_any (r : List String) :
    ∀ p, (fixList p r).2.2 = ((fixList p r).2.1.any isMutIssue) := by
  induction r with
  | nil => intro p; simp [fixList]
  | cons line r0 ih =>
    intro p
    by_cases hc1 : check1 line r0.head? = true
    · rw [fixList_cons_pos p line r0 hc1]
      simp only
      rw [vstep_fix_mod, hc1, List.any_append, vstep_iss_any_mut, hc1,
        ih ("" :: (vstep true p line r0).cur :: p)]
    · rw [fixList_cons_neg p line r0 hc1]
      simp only
      rw [vstep_fix_mod, List.any_append, vstep_iss_any_mut,
        ih ((vstep true p line r0).cur :: p)]

/-- C9: in fix mode a file is written back exactly when one of the mutating
checks (1, 2, 2b, 2c) fired on it; a file with only Check 3 findings, or a
read error, produces no write and the file is left unchanged. -/
theorem fix_write_iff_mutating (data : Except String String) :
    ((validateFile true data).2.isSome = true ↔
      ∃ x ∈ (validateFile true data).1, isMutIssue x = true) ∧
    ((validateFile true data).2 = none → fileAfter true data = data) := by
  constructor
  · cases data with
    | error e =>
      show (Option.isSome none = true ↔ ∃ x ∈ [Issue.readErr e], isMutIssue x = true)
      simp [isMutIssue]
    | ok content =>
      rw [validateFile_fix_eq]
      simp only
      rw [fixList_mod_any (pySplit content) []]
      by_cases hm : ((fixList [] (pySplit content)).2.1.any isMutIssue) = true
      · simp only [hm, if_pos, Option.isSome_some]
        rw [List.any_eq_true] at hm
        simpa using hm
      · simp only [hm, Bool.false_eq_true, if_false, Option.isSome_none]
        rw [Bool.not_eq_true, List.any_eq_false] at hm
        constructor
        · intro hfalse; exact absurd hfalse (by simp)
        · rintro ⟨x, hx, hmut⟩
          exact absurd hmut (by simp [hm x hx])
  · intro hnone
    unfold fileAfter
    rw [hnone]

/-- C9 witness: a file whose only finding is a Check 3 issue is not
rewritten. -/
theorem fix_write_iff_mutating_witness :
    (validateFile true (.ok "1. **P**:\nx")).2 = none ∧
    fileAfter true (.ok "1. **P**:\nx") = .ok "1. **P**:\nx" := by
  have hnone : (validateFile true (.ok "1. **P**:\nx")).2 = none := by
    rw [validateFile_fix_eq]
    decide
  exact ⟨hnone, (fix_write_iff_mutating (.ok "1. **P**:\nx")).2 hnone⟩

theorem stripL_cons_sp (l : List Char) : stripL (' ' :: l) = stripL l := by
  unfold stripL
  rw [List.dropWhile_cons, if_pos (by decide : isPyWs ' ' = true)]

theorem pyStrip_fix2 (line : String) (h : pyStartsWith line "  - " = true) :
    pyStrip ("    " ++ pyDropChars line 2) = pyStrip line := by
  rw [pyStartsWith, List.isPrefixOf_iff_prefix] at h
  obtain ⟨t, ht⟩ := h
  have hdata : line.data = ' ' :: ' ' :: '-' :: ' ' :: t := by rw [← ht]; rfl
  have hdrop : (pyDropChars line 2).data = '-' :: ' ' :: t := by
    show line.data.drop 2 = _
    rw [hdata]
    rfl
  show (⟨stripL (("    " ++ pyDropChars line 2).data)⟩ : String) = ⟨stripL line.data⟩
  rw [String.data_append, hdrop, hdata]
  show (⟨stripL (' ' :: ' ' :: ' ' :: ' ' :: ('-' :: ' ' :: t))⟩ : String) =
    ⟨stripL (' ' :: ' ' :: '-' :: ' ' :: t)⟩
  simp only [stripL_cons_sp]

theorem pyStrip_fix3 (line : String) (h : pyStartsWith line "   - " = true) :
    pyStrip ("    " ++ pyDropChars line 3) = pyStrip line := by
  rw [pyStartsWith, List.isPrefixOf_iff_prefix] at h
  obtain ⟨t, ht⟩ := h
  have hdata : line.data = ' ' :: ' ' :: ' ' :: '-' :: ' ' :: t := by rw [← ht]; rfl
  have hdrop : (pyDropChars line 3).data = '-' :: ' ' :: t := by
    show line.data.drop 3 = _
    rw [hdata]
    rfl
  show (⟨stripL (("    " ++ pyDropChars line 3).data)⟩ : String) = ⟨stripL line.data⟩
  rw [String.data_append, hdrop, hdata]
  show (⟨stripL (' ' :: ' ' :: ' ' :: ' ' :: ('-' :: ' ' :: t))⟩ : String) =
    ⟨stripL (' ' :: ' ' :: ' ' :: '-' :: ' ' :: t)⟩
  simp only [stripL_cons_sp]

theorem check2_fst (line : String) (h : check2 line = true) :
    pyStartsWith line "  - " = true := by
  unfold check2 at h
  exact (Bool.and_eq_true _ _).mp ((Bool.and_eq_true _ _).mp h).1 |>.1

theorem check2b_fst (p : List String) (line : String) (h : check2b p line = true) :
    pyStartsWith line "   - " = true := by
  unfold check2b at h
  exact (Bool.and_eq_true _ _).mp
    ((Bool.and_eq_true _ _).mp ((Bool.and_eq_true _ _).mp h).1).1 |>.1

/-- The Check 2 / Check 2b rewrites only change leading whitespace: the
stripped text of `lines[i]` is unchanged by a fix-mode iteration. -/
theorem vstep_cur_strip (p : List String) (line : String) (rest0 : List String) :
    pyStrip ((vstep true p line rest0).cur) = pyStrip line := by
  rw [vstep_true_cur]
  by_cases h2b : check2b p line = true
  · rw [if_pos h2b]
    exact pyStrip_fix3 line (check2b_fst p line h2b)
  · rw [if_neg h2b]
    by_cases h2 : check2 line = true
    · rw [if_pos h2]
      exact pyStrip_fix2 line (check2_fst line h2)
    · rw [if_neg h2]

theorem not2sp_of_4sp (s : String) : pyStartsWith ("    " ++ s) "  - " = false := by
  rw [pyStartsWith, String.data_append]
  show List.isPrefixOf [' ', ' ', '-', ' '] (' ' :: ' ' :: ' ' :: ' ' :: s.data) = false
  simp [List.isPrefixOf]

theorem not3sp_of_4sp (s : String) : pyStartsWith ("    " ++ s) "   - " = false := by
  rw [pyStartsWith, String.data_append]
  show List.isPrefixOf [' ', ' ', ' ', '-', ' '] (' ' :: ' ' :: ' ' :: ' ' :: s.data) = false
  simp [List.isPrefixOf]

theorem check1_some_blank (s : String) : check1 s (some "") = false := by
  show (pyEndsWith (pyStrip s) ":" &&
    (pyStartsWith (pyStrip "") "- " || pyStartsWith (pyStrip "") "* ")) = false
  rw [(by decide : pyStartsWith (pyStrip "") "- " = false),
    (by decide : pyStartsWith (pyStrip "") "* " = false)]
  simp

/-- After a fix-mode iteration, the final `lines[i]` no longer triggers
Check 2. -/
theorem vstep_cur_check2 (p : List String) (line : String) (rest0 : List String) :
    check2 ((vstep true p line rest0).cur) = false := by
  rw [vstep_true_cur]
  by_cases h2b : check2b p line = true
  · rw [if_pos h2b]
    unfold check2
    rw [not2sp_of_4sp]
    simp
  · rw [if_neg h2b]
    by_cases h2 : check2 line = true
    · rw [if_pos h2]
      unfold check2
      rw [not2sp_of_4sp]
      simp
    · rw [if_neg h2]
      exact Bool.not_eq_true _ |>.mp h2

/-- After a fix-mode iteration, the final `lines[i]` no longer triggers
Check 2b (in any context). -/
theorem vstep_cur_check2b (p q : List String) (line : String) (rest0 : List String)
    (hline : check2b q line = false) :
    check2b q ((vstep true p line rest0).cur) = false := by
  rw [vstep_true_cur]
  by_cases h2b : check2b p line = true
  · rw [if_pos h2b]
    unfold check2b
    rw [not3sp_of_4sp]
    simp
  · rw [if_neg h2b]
    by_cases h2 : check2 line = true
    · rw [if_pos h2]
      unfold check2b
      rw [not3sp_of_4sp]
      simp
    · rw [if_neg h2]
      exact hline

/-- No check that mutates in fix mode triggers here: the conditions pass 2
would evaluate at this position are all false. -/
def NoTrig (p : List String) (line : String) (next? : Option String) : Prop :=
  check1 line next? = false ∧ check2 line = false ∧ check2b p line = false

/-- The whole suffix is free of mutating triggers when scanned after the
visited prefix `p`. -/
def CleanL (p : List String) : List String → Prop
  | [] => True
  | line :: r0 => NoTrig p line r0.head? ∧ CleanL (line :: p) r0

/-- On a trigger-free list, a fix-mode pass changes nothing and sets no
`modified` flag. -/
theorem cleanL_fixList_noop (r : List String) : ∀ p, CleanL p r →
    (fixList p r).1 = r ∧ (fixList p r).2.2 = false := by
  induction r with
  | nil => intro p _; exact ⟨rfl, rfl⟩
  | cons line r0 ih =>
    rintro p ⟨⟨h1, h2, h2b⟩, hrest⟩
    have hc1 : ¬check1 line r0.head? = true := by rw [h1]; exact Bool.false_ne_true
    rw [fixList_cons_neg p line r0 hc1]
    have hcur : (vstep true p line r0).cur = line := by
      rw [vstep_true_cur, if_neg (by rw [h2b]; exact Bool.false_ne_true),
        if_neg (by rw [h2]; exact Bool.false_ne_true)]
    have hmod : (vstep true p line r0).mod = false := by
      rw [vstep_fix_mod, h1, h2, h2b]
      rfl
    rw [hcur, hmod]
    obtain ⟨ihl, ihm⟩ := ih (line :: p) hrest
    rw [ihl, ihm]
    exact ⟨rfl, rfl⟩

theorem vstep_cur_check2b_self (p : List String) (line : String)
    (rest0 : List String) :
    check2b p ((vstep true p line rest0).cur) = false := by
  rw [vstep_true_cur]
  by_cases h2b : check2b p line = true
  · rw [if_pos h2b]
    unfold check2b
    rw [not3sp_of_4sp]
    simp
  · rw [if_neg h2b]
    by_cases h2 : check2 line = true
    · rw [if_pos h2]
      unfold check2b
      rw [not3sp_of_4sp]
      simp
    · rw [if_neg h2]
      exact Bool.not_eq_true _ |>.mp h2b

/-- The bulleted-next-line disjunct of Check 1. -/
def bulletNext (next? : Option String) : Bool :=
  match next? with
  | some nxt => pyStartsWith (pyStrip nxt) "- " || pyStartsWith (pyStrip nxt) "* "
  | none => false

theorem check1_eq_bullet (line : String) (next? : Option String) :
    check1 line next? = (pyEndsWith (pyStrip line) ":" && bulletNext next?) := by
  cases next? <;> rfl

theorem bulletNext_congr {n1 n2 : Option String}
    (h : n1.map pyStrip = n2.map pyStrip) : bulletNext n1 = bulletNext n2 := by
  cases n1 with
  | none => cases n2 with
    | none => rfl
    | some b =>
      simp only [Option.map_none', Option.map_some'] at h
      exact Option.noConfusion h
  | some a => cases n2 with
    | none =>
      simp only [Option.map_none', Option.map_some'] at h
      exact Option.noConfusion h
    | some b =>
      simp only [Option.map_some', Option.some.injEq] at h
      show (pyStartsWith (pyStrip a) "- " || pyStartsWith (pyStrip a) "* ") = _
      rw [h]
      rfl

/-- The first output line of a fix pass strips to the same text as the first
input line. -/
theorem fixList_head_strip (r : List String) (p : List String) :
    ((fixList p r).1.head?).map pyStrip = (r.head?).map pyStrip := by
  cases r with
  | nil => rfl
  | cons line r0 =>
    by_cases hc1 : check1 line r0.head? = true
    · rw [fixList_cons_pos p line r0 hc1]
      simp only [List.head?_cons, Option.map_some']
      rw [vstep_cur_strip]
    · rw [fixList_cons_neg p line r0 hc1]
      simp only [List.head?_cons, Option.map_some']
      rw [vstep_cur_strip]

/-- The output of a fix-mode pass is free of mutating triggers: a second
pass finds nothing to fix. -/
theorem fixList_output_clean (r : List String) : ∀ p, CleanL p ((fixList p r).1) := by
  induction r with
  | nil => intro p; exact trivial
  | cons line r0 ih =>
    intro p
    by_cases hc1 : check1 line r0.head? = true
    · rw [fixList_cons_pos p line r0 hc1]
      refine ⟨⟨?_, ?_, ?_⟩, ⟨?_, ?_, ?_⟩, ?_⟩
      · exact check1_some_blank _
      · exact vstep_cur_check2 p line r0
      · exact vstep_cur_check2b_self p line r0
      · exact check1_empty _
      · exact check2_empty
      · exact check2b_empty _
      · exact ih ("" :: (vstep true p line r0).cur :: p)
    · rw [fixList_cons_neg p line r0 hc1]
      refine ⟨⟨?_, ?_, ?_⟩, ?_⟩
      · rw [check1_eq_bullet, vstep_cur_strip,
          bulletNext_congr (fixList_head_strip r0 ((vstep true p line r0).cur :: p)),
          ← check1_eq_bullet]
        exact Bool.not_eq_true _ |>.mp hc1
      · exact vstep_cur_check2 p line r0
      · exact vstep_cur_check2b_self p line r0
      · exact ih ((vstep true p line r0).cur :: p)

theorem splitNlL_ne_nil (l : List Char) : splitNlL l ≠ [] := by
  induction l with
  | nil => simp [splitNlL]
  | cons c rest ih =>
    unfold splitNlL
    by_cases hc : c = '\n'
    · simp [hc]
    · simp only [hc, if_false]
      cases h : splitNlL rest with
      | nil => simp
      | cons a t => simp

theorem splitNlL_nlFree (l : List Char) : ∀ x ∈ splitNlL l, '\n' ∉ x := by
  induction l with
  | nil =>
    intro x hx
    simp [splitNlL] at hx
    simp [hx]
  | cons c rest ih =>
    intro x hx
    unfold splitNlL at hx
    by_cases hc : c = '\n'
    · simp only [hc, if_pos] at hx
      rcases List.mem_cons.mp hx with h | h
      · simp [h]
      · exact ih x h
    · simp only [hc, if_false] at hx
      cases hsp : splitNlL rest with
      | nil => exact absurd hsp (splitNlL_ne_nil rest)
      | cons a t =>
        rw [hsp] at hx
        rcases List.mem_cons.mp hx with h | h
        · subst h
          intro hmem
          rcases List.mem_cons.mp hmem with h2 | h2
          · exact hc h2.symm
          · exact ih a (by rw [hsp]; exact List.mem_cons_self a t) h2
        · exact ih x (by rw [hsp]; exact List.mem_cons_of_mem a h)

theorem splitNlL_no_nl (x : List Char) (hx : '\n' ∉ x) : splitNlL x = [x] := by
  induction x with
  | nil => rfl
  | cons c t ih =>
    have hc : ¬c = '\n' := fun h => hx (by rw [h]; exact List.mem_cons_self _ _)
    have ht : '\n' ∉ t := fun h => hx (List.mem_cons_of_mem c h)
    unfold splitNlL
    simp only [hc, if_false]
    rw [ih ht]

theorem splitNlL_cons_nl (rest : List Char) :
    splitNlL ('\n' :: rest) = [] :: splitNlL rest := by
  simp [splitNlL]

theorem splitNlL_cons_other (c : Char) (rest : List Char) (hc : ¬c = '\n') :
    splitNlL (c :: rest) =
      match splitNlL rest with
      | [] => [[c]]
      | h :: t => (c :: h) :: t := by
  simp [splitNlL, hc]

theorem splitNlL_append_nl (x : List Char) (hx : '\n' ∉ x) (rest : List Char) :
    splitNlL (x ++ '\n' :: rest) = x :: splitNlL rest := by
  induction x with
  | nil =>
    show splitNlL ('\n' :: rest) = [] :: splitNlL rest
    exact splitNlL_cons_nl rest
  | cons c t ih =>
    have hc : ¬c = '\n' := fun h => hx (by rw [h]; exact List.mem_cons_self _ _)
    have ht : '\n' ∉ t := fun h => hx (List.mem_cons_of_mem c h)
    show splitNlL (c :: (t ++ '\n' :: rest)) = (c :: t) :: splitNlL rest
    rw [splitNlL_cons_other c (t ++ '\n' :: rest) hc, ih ht]

theorem splitNl_joinNl (ls : List (List Char)) (hne : ls ≠ [])
    (hnl : ∀ x ∈ ls, '\n' ∉ x) : splitNlL (joinNlL ls) = ls := by
  induction ls with
  | nil => exact absurd rfl hne
  | cons x t ih =>
    cases t with
    | nil =>
      show splitNlL (joinNlL [x]) = [x]
      show splitNlL x = [x]
      exact splitNlL_no_nl x (hnl x (List.mem_cons_self _ _))
    | cons y t2 =>
      show splitNlL (x ++ '\n' :: joinNlL (y :: t2)) = x :: (y :: t2)
      rw [splitNlL_append_nl x (hnl x (List.mem_cons_self _ _))]
      rw [ih (by simp) (fun z hz => hnl z (List.mem_cons_of_mem x hz))]

/-- Splitting the joined line list recovers the lines, provided the list is
nonempty and none of its lines contains a newline. -/
theorem pySplit_pyJoin (lines : List String) (hne : lines ≠ [])
    (hnl : ∀ s ∈ lines, '\n' ∉ s.data) : pySplit (pyJoin lines) = lines := by
  unfold pySplit pyJoin
  have h1 : (String.mk (joinNlL (lines.map String.data))).data =
      joinNlL (lines.map String.data) := rfl
  rw [h1, splitNl_joinNl (lines.map String.data)
    (by simpa using hne)
    (by intro x hx
        obtain ⟨s, hs, rfl⟩ := List.mem_map.mp hx
        exact hnl s hs)]
  show List.map (fun l => String.mk l) (List.map String.data lines) = lines
  rw [List.map_map]
  exact List.map_id lines

theorem pySplit_nlFree (s : String) : ∀ x ∈ pySplit s, '\n' ∉ x.data := by
  intro x hx
  obtain ⟨l, hl, rfl⟩ := List.mem_map.mp hx
  exact splitNlL_nlFree s.data l hl

theorem pySplit_ne_nil (s : String) : pySplit s ≠ [] := by
  unfold pySplit
  intro h
  exact splitNlL_ne_nil s.data (List.map_eq_nil_iff.mp h)

theorem vstep_cur_nlFree (p : List String) (line : String) (rest0 : List String)
    (h : '\n' ∉ line.data) : '\n' ∉ ((vstep true p line rest0).cur).data := by
  rw [vstep_true_cur]
  have h4 : ∀ k, '\n' ∉ (("    " ++ pyDropChars line k) : String).data := by
    intro k hmem
    rw [String.data_append] at hmem
    rcases List.mem_append.mp hmem with hm | hm
    · exact absurd hm (by decide)
    · exact h (List.mem_of_mem_drop hm)
  split
  · exact h4 3
  · split
    · exact h4 2
    · exact h

theorem fixList_nlFree (r : List String) : ∀ p, (∀ x ∈ r, '\n' ∉ x.data) →
    ∀ x ∈ (fixList p r).1, '\n' ∉ x.data := by
  induction r with
  | nil => intro p _ x hx; simp [fixList] at hx
  | cons line r0 ih =>
    intro p hr x hx
    have hline : '\n' ∉ line.data := hr line (List.mem_cons_self _ _)
    have hr0 : ∀ y ∈ r0, '\n' ∉ y.data := fun y hy => hr y (List.mem_cons_of_mem _ hy)
    by_cases hc1 : check1 line r0.head? = true
    · rw [fixList_cons_pos p line r0 hc1] at hx
      rcases List.mem_cons.mp hx with h | h
      · subst h; exact vstep_cur_nlFree p line r0 hline
      · rcases List.mem_cons.mp h with h2 | h2
        · subst h2; simp
        · exact ih ("" :: (vstep true p line r0).cur :: p) hr0 x h2
    · rw [fixList_cons_neg p line r0 hc1] at hx
      rcases List.mem_cons.mp hx with h | h
      · subst h; exact vstep_cur_nlFree p line r0 hline
      · exact ih ((vstep true p line r0).cur :: p) hr0 x h

theorem fixList_ne_nil (r : List String) (p : List String) (hr : r ≠ []) :
    (fixList p r).1 ≠ [] := by
  cases r with
  | nil => exact absurd rfl hr
  | cons line r0 =>
    by_cases hc1 : check1 line r0.head? = true
    · rw [fixList_cons_pos p line r0 hc1]; simp
    · rw [fixList_cons_neg p line r0 hc1]; simp

/-- C2: fix mode is idempotent.  After one fix-mode run on any file, a
second fix-mode run sets no `modified` flag (so performs no write) and
leaves the content identical. -/
theorem fix_mode_idempotent (data : Except String String) :
    (validateFile true (fileAfter true data)).2 = none ∧
    fileAfter true (fileAfter true data) = fileAfter true data := by
  have key : (validateFile true (fileAfter true data)).2 = none := by
    cases data with
    | error e =>
      have h1 : fileAfter true (.error e) = .error e := rfl
      rw [h1]
      rfl
    | ok content =>
      by_cases hmod : (fixList [] (pySplit content)).2.2 = true
      · have hafter : fileAfter true (.ok content) =
            .ok (pyJoin (fixList [] (pySplit content)).1) := by
          show (match (validateFile true (.ok content)).2 with
            | some newContent => Except.ok newContent
            | none => Except.ok content) = _
          rw [validateFile_fix_eq]
          simp only [hmod, if_pos]
        rw [hafter, validateFile_fix_eq]
        simp only
        have hsplit : pySplit (pyJoin (fixList [] (pySplit content)).1) =
            (fixList [] (pySplit content)).1 := by
          apply pySplit_pyJoin
          · exact fixList_ne_nil (pySplit content) [] (pySplit_ne_nil content)
          · exact fixList_nlFree (pySplit content) [] (pySplit_nlFree content)
        rw [hsplit]
        have hclean := fixList_output_clean (pySplit content) []
        rw [(cleanL_fixList_noop ((fixList [] (pySplit content)).1) [] hclean).2]
        rfl
      · have hafter : fileAfter true (.ok content) = .ok content := by
          show (match (validateFile true (.ok content)).2 with
            | some newContent => Except.ok newContent
            | none => Except.ok content) = _
          rw [validateFile_fix_eq]
          simp only [hmod, Bool.false_eq_true, if_false]
        rw [hafter, validateFile_fix_eq]
        simp only
        simp [hmod]
  refine ⟨key, ?_⟩
  show (match (validateFile true (fileAfter true data)).2 with
    | some newContent => Except.ok newContent
    | none => fileAfter true data) = fileAfter true data
  rw [key]

/-- The static Check 1 trigger at index `i` of a line list. -/
def c1trigger (lines : List String) (i : Nat) : Bool :=
  match lines[i]? with
  | some l => check1 l lines[i + 1]?
  | none => false

theorem getElem0_head (l : List String) : l[0]? = l.head? := by
  cases l <;> simp

theorem c1trigger_cons_zero (line : String) (r0 : List String) :
    c1trigger (line :: r0) 0 = check1 line r0.head? := by
  unfold c1trigger
  rw [List.getElem?_cons_zero, List.getElem?_cons_succ, getElem0_head]

theorem c1trigger_cons_succ (line : String) (r0 : List String) (n : Nat) :
    c1trigger (line :: r0) (n + 1) = c1trigger r0 n := by
  unfold c1trigger
  rw [List.getElem?_cons_succ, List.getElem?_cons_succ]

theorem vstep_iss_num (f : Bool) (p : List String) (line : String)
    (r0 : List String) :
    ∀ x ∈ (vstep f p line r0).iss, ∃ k, x = Issue.line (p.length + 1) k := by
  intro x hx
  simp only [vstep, List.mem_append] at hx
  rcases hx with ((((h | h) | h) | h) | h) <;>
    first
      | (split at h <;>
          first
            | (rw [List.mem_singleton] at h; exact ⟨_, h⟩)
            | (simp at h; exact ⟨_, h.2⟩)
            | simp at h)
      | (simp at h; exact ⟨_, h.2⟩)
      | simp at h

theorem reportIss_cons (p : List String) (line : String) (r0 : List String) :
    reportIss p (line :: r0) =
      (vstep false p line r0).iss ++ reportIss (line :: p) r0 := rfl

theorem reportIss_mem_num (r : List String) : ∀ p n k,
    Issue.line n k ∈ reportIss p r → p.length < n := by
  induction r with
  | nil => intro p n k h; simp [reportIss] at h
  | cons line r0 ih =>
    intro p n k h
    rw [reportIss_cons] at h
    rcases List.mem_append.mp h with hm | hm
    · obtain ⟨k2, hk⟩ := vstep_iss_num false p line r0 _ hm
      injection hk with h1 h2
      omega
    · have := ih (line :: p) n k hm
      simp only [List.length_cons] at this
      omega

theorem count_c1_other (b : Bool) (k : Chk) (m m2 : Nat) (hk : k ≠ Chk.c1) :
    List.count (Issue.line m Chk.c1) (if b then [Issue.line m2 k] else []) = 0 := by
  apply List.count_eq_zero.mpr
  split
  · rw [List.mem_singleton]
    intro hx
    injection hx with h1 h2
    exact hk h2.symm
  · simp

theorem reportIss_count_c1 (r : List String) : ∀ p i, c1trigger r i = true →
    List.count (Issue.line (p.length + i + 1) Chk.c1) (reportIss p r) = 1 := by
  induction r with
  | nil => intro p i h; simp [c1trigger] at h
  | cons line r0 ih =>
    intro p i h
    rw [reportIss_cons, List.count_append]
    cases i with
    | zero =>
      have ht : check1 line r0.head? = true := by
        rw [← c1trigger_cons_zero]; exact h
      have hrec : List.count (Issue.line (p.length + 0 + 1) Chk.c1)
          (reportIss (line :: p) r0) = 0 := by
        apply List.count_eq_zero.mpr
        intro hm
        have := reportIss_mem_num r0 (line :: p) _ _ hm
        simp only [List.length_cons] at this
        omega
      rw [hrec]
      rw [vstep_iss_report, if_pos ht, List.count_append, List.count_append,
        List.count_append]
      rw [count_c1_other (check2 line) Chk.c2 _ _ (by simp),
        count_c1_other (check2b p line) Chk.c2b _ _ (by simp),
        count_c1_other (check3 line r0.head?) Chk.c3 _ _ (by simp)]
      simp
    | succ n =>
      have ht : c1trigger r0 n = true := by
        rw [← c1trigger_cons_succ line r0 n]; exact h
      have hstep : List.count (Issue.line (p.length + (n + 1) + 1) Chk.c1)
          (vstep false p line r0).iss = 0 := by
        apply List.count_eq_zero.mpr
        intro hm
        obtain ⟨k, hk⟩ := vstep_iss_num false p line r0 _ hm
        injection hk with h1 h2
        omega
      rw [hstep]
      have hrec := ih (line :: p) n ht
      simp only [List.length_cons] at hrec
      rw [show p.length + (n + 1) + 1 = p.length + 1 + n + 1 from by omega]
      rw [hrec]

theorem fixList_c1_insert (r : List String) : ∀ p i, c1trigger r i = true →
    ∃ j, (((fixList p r).1)[j]?).map pyStrip = (r[i]?).map pyStrip ∧
         ((fixList p r).1)[j + 1]? = some "" ∧
         (((fixList p r).1)[j + 2]?).map pyStrip = (r[i + 1]?).map pyStrip := by
  induction r with
  | nil => intro p i h; simp [c1trigger] at h
  | cons line r0 ih =>
    intro p i h
    cases i with
    | zero =>
      have ht : check1 line r0.head? = true := by
        rw [← c1trigger_cons_zero]; exact h
      rw [fixList_cons_pos p line r0 ht]
      refine ⟨0, ?_, ?_, ?_⟩
      · rw [List.getElem?_cons_zero, List.getElem?_cons_zero]
        simp only [Option.map_some']
        rw [vstep_cur_strip]
      · rw [List.getElem?_cons_succ, List.getElem?_cons_zero]
      · rw [List.getElem?_cons_succ, List.getElem?_cons_succ, getElem0_head,
          List.getElem?_cons_succ, getElem0_head]
        exact fixList_head_strip r0 ("" :: (vstep true p line r0).cur :: p)
    | succ n =>
      have ht : c1trigger r0 n = true := by
        rw [← c1trigger_cons_succ line r0 n]; exact h
      by_cases hc1 : check1 line r0.head? = true
      · rw [fixList_cons_pos p line r0 hc1]
        obtain ⟨j, h1, h2, h3⟩ := ih ("" :: (vstep true p line r0).cur :: p) n ht
        refine ⟨j + 2, ?_, ?_, ?_⟩
        · rw [show j + 2 = (j + 1) + 1 from rfl, List.getElem?_cons_succ,
            List.getElem?_cons_succ, List.getElem?_cons_succ]
          exact h1
        · rw [show j + 2 + 1 = (j + 1 + 1) + 1 from rfl, List.getElem?_cons_succ,
            List.getElem?_cons_succ]
          exact h2
        · rw [show j + 2 + 2 = (j + 2 + 1) + 1 from rfl, List.getElem?_cons_succ,
            List.getElem?_cons_succ, List.getElem?_cons_succ]
          exact h3
      · rw [fixList_cons_neg p line r0 hc1]
        obtain ⟨j, h1, h2, h3⟩ := ih ((vstep true p line r0).cur :: p) n ht
        refine ⟨j + 1, ?_, ?_, ?_⟩
        · rw [List.getElem?_cons_succ, List.getElem?_cons_succ]
          exact h1
        · rw [show j + 1 + 1 = (j + 1) + 1 from rfl, List.getElem?_cons_succ]
          exact h2
        · rw [show j + 1 + 2 = (j + 2) + 1 from rfl, List.getElem?_cons_succ,
            List.getElem?_cons_succ]
          exact h3

theorem cleanL_report_no_c1 (r : List String) : ∀ p, CleanL p r →
    ∀ n, Issue.line n Chk.c1 ∉ reportIss p r := by
  induction r with
  | nil => intro p _ n hm; simp [reportIss] at hm
  | cons line r0 ih =>
    rintro p ⟨⟨h1, h2, h2b⟩, hrest⟩ n hm
    rw [reportIss_cons] at hm
    rcases List.mem_append.mp hm with hmm | hmm
    · rw [vstep_iss_report] at hmm
      simp only [h1, h2, h2b, Bool.false_eq_true, if_false, List.nil_append] at hmm
      split at hmm
      · rw [List.mem_singleton] at hmm
        injection hmm with ha hb
        exact Chk.noConfusion hb
      · simp at hmm
    · exact ih (line :: p) hrest n hmm

theorem cleanL_fix_no_c1 (r : List String) : ∀ p, CleanL p r →
    ∀ n, Issue.line n Chk.c1 ∉ (fixList p r).2.1 := by
  induction r with
  | nil => intro p _ n hm; simp [fixList] at hm
  | cons line r0 ih =>
    rintro p ⟨⟨h1, h2, h2b⟩, hrest⟩ n hm
    have hc1 : ¬check1 line r0.head? = true := by
      rw [h1]; exact Bool.false_ne_true
    rw [fixList_cons_neg p line r0 hc1] at hm
    have hcur : (vstep true p line r0).cur = line := by
      rw [vstep_true_cur, if_neg (by rw [h2b]; exact Bool.false_ne_true),
        if_neg (by rw [h2]; exact Bool.false_ne_true)]
    rcases List.mem_append.mp hm with hmm | hmm
    · rw [vstep_iss_fix] at hmm
      simp only [h1, h2, h2b, Bool.false_eq_true, if_false, List.nil_append] at hmm
      split at hmm
      · rw [List.mem_singleton] at hmm
        injection hmm with ha hb
        exact Chk.noConfusion hb
      · simp at hmm
    · rw [hcur] at hmm
      exact ih (line :: p) hrest n hmm

/-- C1: for every line whose stripped text ends in a colon and whose next
line strips to a `- ` or `* ` bullet: report mode emits exactly one Check 1
issue at that line number; fix mode inserts exactly one empty line
immediately after that line (the line and its old successor keep their
stripped text, with the new blank between them); and re-running either mode
on the fixed lines finds no Check 1 issue anywhere. -/
theorem missing_blank_before_list (lines : List String) (i : Nat)
    (h : c1trigger lines i = true) :
    List.count (Issue.line (i + 1) Chk.c1) (reportIssues lines) = 1 ∧
    (∃ j, ((fixLines lines)[j]?).map pyStrip = (lines[i]?).map pyStrip ∧
          (fixLines lines)[j + 1]? = some "" ∧
          ((fixLines lines)[j + 2]?).map pyStrip = (lines[i + 1]?).map pyStrip) ∧
    (∀ n, Issue.line n Chk.c1 ∉ reportIssues (fixLines lines)) ∧
    (∀ n, Issue.line n Chk.c1 ∉ (fixResult (fixLines lines)).2.1) := by
  have hfixeq : fixLines lines = (fixList [] lines).1 := by
    unfold fixLines fixResult
    rw [vloop_fix]
  have hclean : CleanL [] (fixLines lines) := by
    rw [hfixeq]
    exact fixList_output_clean lines []
  refine ⟨?_, ?_, ?_, ?_⟩
  · rw [reportIssues_eq]
    have := reportIss_count_c1 lines [] i h
    simpa using this
  · rw [hfixeq]
    exact fixList_c1_insert lines [] i h
  · intro n
    rw [reportIssues_eq]
    exact cleanL_report_no_c1 (fixLines lines) [] hclean n
  · intro n
    unfold fixResult
    rw [vloop_fix]
    exact cleanL_fix_no_c1 (fixLines lines) [] hclean n

/-- C1 witness, on the end-to-end example of the specification. -/
theorem missing_blank_before_list_witness :
    c1trigger ["Options:", "- one", "- two"] 0 = true ∧
    (List.count (Issue.line (0 + 1) Chk.c1)
        (reportIssues ["Options:", "- one", "- two"]) = 1 ∧
     (∃ j, ((fixLines ["Options:", "- one", "- two"])[j]?).map pyStrip =
             ((["Options:", "- one", "- two"] : List String)[0]?).map pyStrip ∧
           (fixLines ["Options:", "- one", "- two"])[j + 1]? = some "" ∧
           ((fixLines ["Options:", "- one", "- two"])[j + 2]?).map pyStrip =
             ((["Options:", "- one", "- two"] : List String)[0 + 1]?).map pyStrip) ∧
     (∀ n, Issue.line n Chk.c1 ∉
        reportIssues (fixLines ["Options:", "- one", "- two"])) ∧
     (∀ n, Issue.line n Chk.c1 ∉
        (fixResult (fixLines ["Options:", "- one", "- two"])).2.1)) :=
  ⟨by decide, missing_blank_before_list ["Options:", "- one", "- two"] 0 (by decide)⟩
